import Mathlib

/-!
Shallow embedding of `dns/edns.py` (EDNS option codec): the option data
model, Python comparison-operator semantics, wire encode/decode via
`struct.pack`/`struct.unpack`, the option-type registry, and the
module-load-time evaluation of `LLQOption.__init__`'s default arguments.

Bytes are modelled as `List Nat` (each element a byte value), machine
integers as `Nat` with explicit range conditions where `struct` checks
them, and a raised exception as `none` / a dedicated result constructor.
-/

namespace DnsEdns

/-! ### Module-level constants (`edns.py` lines 22-28) -/

def LLQ : Nat := 1

def UL : Nat := 2

def NSID : Nat := 3

def LLQ_ERROR_NOERROR : Nat := 0

def LLQ_ERROR_SERVFULL : Nat := 1

def LLQ_ERROR_STATIC : Nat := 2

def LLQ_ERROR_FORMAT : Nat := 3

def LLQ_ERROR_NOSUCH_LLQ : Nat := 4

def LLQ_ERROR_BADVER : Nat := 5

def LLQ_ERROR_UNKNOWN : Nat := 6

def LLQ_OPCODE_SETUP : Nat := 1

def LLQ_OPCODE_REFRESH : Nat := 2

def LLQ_OPCODE_EVENT : Nat := 3

/-! ### Big-endian byte strings and the `struct` module

`struct.pack('!...')` writes each value big-endian in its field width and
raises `struct.error` when a value does not fit; `struct.unpack('!...')`
raises `struct.error` unless the byte string has exactly the format's
total width.  A raised `struct.error` is modelled as `none`. -/

/-- The `w`-byte big-endian encoding of `v` (most significant byte first). -/
def beBytes : Nat → Nat → List Nat
  | 0, _ => []
  | n + 1, v => beBytes n (v / 256) ++ [v % 256]

/-- The value denoted by a big-endian byte string. -/
def beVal (bs : List Nat) : Nat :=
  bs.foldl (fun acc b => acc * 256 + b) 0

/-- One field of a `struct.pack` call: range-check the value against the
field width, as `struct.pack` does, then emit its big-endian bytes. -/
def packField (w v : Nat) : Option (List Nat) :=
  if v < 2 ^ (8 * w) then some (beBytes w v) else none

/-- `struct.pack` over a format given as `(width, value)` pairs. -/
def struct_pack : List (Nat × Nat) → Option (List Nat)
  | [] => some []
  | (w, v) :: rest => do
      let b ← packField w v
      let bs ← struct_pack rest
      pure (b ++ bs)

/-- `struct.unpack` over a format given as a list of field widths: succeeds
only when `s` has exactly the format's total width, returning the decoded
field values in order. -/
def struct_unpack : List Nat → List Nat → Option (List Nat)
  | [], s => if s.length = 0 then some [] else none
  | w :: rest, s =>
      if w ≤ s.length then
        match struct_unpack rest (s.drop w) with
        | some vs => some (beVal (s.take w) :: vs)
        | none => none
      else none

/-! ### Option data model (`edns.py` classes)

Each Python class becomes a structure holding its `__init__`-assigned
fields.  `LLQOption.__init__` and `ULOption.__init__` always set
`self.otype` to the constants `LLQ` and `UL`, so for those variants
`otype` is a constant function rather than a stored field. -/

structure GenericOption where
  otype : Nat
  data : List Nat
deriving DecidableEq

structure LLQOption where
  version : Nat
  opcode : Nat
  errorcode : Nat
  queryid : Nat
  leaselife : Nat
deriving DecidableEq

structure ULOption where
  leaselength : Nat
  ulid : Nat
deriving DecidableEq

def LLQOption.otype (_ : LLQOption) : Nat := LLQ

def ULOption.otype (_ : ULOption) : Nat := UL

/-- An EDNS option instance: one of the three concrete classes. -/
inductive EdnsOption where
  | generic (g : GenericOption)
  | llq (l : LLQOption)
  | ul (u : ULOption)
deriving DecidableEq

/-- The `otype` attribute of an option instance. -/
def EdnsOption.otype : EdnsOption → Nat
  | .generic g => g.otype
  | .llq l => l.otype
  | .ul u => u.otype

/-! ### `_cmp` per variant (`edns.py` lines 126-127, 158-162, 182-183)

Python 2 `cmp` returns a negative, zero or positive integer; only its sign
is consumed, so it is modelled as `Ordering`.  Tuple `cmp` compares
componentwise, the first non-equal component deciding. -/

/-- Python 2 `cmp` on byte strings: componentwise, a strict prefix is
smaller. -/
def cmpBytes : List Nat → List Nat → Ordering
  | [], [] => .eq
  | [], _ :: _ => .lt
  | _ :: _, [] => .gt
  | a :: as, b :: bs =>
      match compare a b with
      | .eq => cmpBytes as bs
      | o => o

/-- `GenericOption._cmp`: `cmp(self.data, other.data)`. -/
def GenericOption.cmp (a b : GenericOption) : Ordering :=
  cmpBytes a.data b.data

/-- `LLQOption._cmp`: `cmp` of the 6-tuples
`(otype, version, opcode, errorcode, queryid, leaselife)`. -/
def LLQOption.cmp (a b : LLQOption) : Ordering :=
  (compare a.otype b.otype).then
    ((compare a.version b.version).then
      ((compare a.opcode b.opcode).then
        ((compare a.errorcode b.errorcode).then
          ((compare a.queryid b.queryid).then
            (compare a.leaselife b.leaselife)))))

/-- `ULOption._cmp`: `cmp` of the pairs `(leaselength, ulid)`. -/
def ULOption.cmp (a b : ULOption) : Ordering :=
  (compare a.leaselength b.leaselength).then (compare a.ulid b.ulid)

/-- `self._cmp(other)` dispatched on the receiver's class.  Each variant's
`_cmp` reads fields specific to its own class from `other`, so calling it
with an instance of a different class raises `AttributeError`, modelled as
`none`. -/
def cmpSame : EdnsOption → EdnsOption → Option Ordering
  | .generic a, .generic b => some (a.cmp b)
  | .llq a, .llq b => some (a.cmp b)
  | .ul a, .ul b => some (a.cmp b)
  | _, _ => none

/-! ### Python comparison-operator semantics (`edns.py` lines 68-104) -/

/-- The `other` operand of a comparison dunder: either an `Option`
instance or any non-`Option` value (distinguished here only by a tag,
since the code only tests `isinstance(other, Option)`). -/
inductive Operand where
  | opt (o : EdnsOption)
  | notOption (tag : Nat)

/-- Result of an ordering dunder: a boolean, the `NotImplemented`
sentinel, or a raised exception. -/
inductive PyCmpResult where
  | val (b : Bool)
  | notImplemented
  | raised
deriving DecidableEq

/-- `Option.__eq__`: `False` for a non-`Option` operand, `False` for a
differing `otype`, else `self._cmp(other) == 0`; `none` models a raised
exception out of `_cmp`. -/
def pyEq (self : EdnsOption) (other : Operand) : Option Bool :=
  match other with
  | .notOption _ => some false
  | .opt o =>
      if self.otype ≠ o.otype then some false
      else (cmpSame self o).map (fun c => c == Ordering.eq)

/-- `Option.__ne__`: `False` for a non-`Option` operand, `False` for a
differing `otype`, else `self._cmp(other) != 0`. -/
def pyNe (self : EdnsOption) (other : Operand) : Option Bool :=
  match other with
  | .notOption _ => some false
  | .opt o =>
      if self.otype ≠ o.otype then some false
      else (cmpSame self o).map (fun c => c != Ordering.eq)

/-- `Option.__lt__`: `NotImplemented` for a non-`Option` operand or a
differing `otype`, else `self._cmp(other) < 0`. -/
def pyLt (self : EdnsOption) (other : Operand) : PyCmpResult :=
  match other with
  | .notOption _ => .notImplemented
  | .opt o =>
      if self.otype ≠ o.otype then .notImplemented
      else
        match cmpSame self o with
        | none => .raised
        | some c => .val (c == Ordering.lt)

/-- `Option.__le__`: `NotImplemented` for a non-`Option` operand or a
differing `otype`, else `self._cmp(other) <= 0`. -/
def pyLe (self : EdnsOption) (other : Operand) : PyCmpResult :=
  match other with
  | .notOption _ => .notImplemented
  | .opt o =>
      if self.otype ≠ o.otype then .notImplemented
      else
        match cmpSame self o with
        | none => .raised
        | some c => .val (c == Ordering.lt || c == Ordering.eq)

/-- `Option.__ge__`: `NotImplemented` for a non-`Option` operand or a
differing `otype`, else `self._cmp(other) >= 0`. -/
def pyGe (self : EdnsOption) (other : Operand) : PyCmpResult :=
  match other with
  | .notOption _ => .notImplemented
  | .opt o =>
      if self.otype ≠ o.otype then .notImplemented
      else
        match cmpSame self o with
        | none => .raised
        | some c => .val (c == Ordering.gt || c == Ordering.eq)

/-- `Option.__gt__`: `NotImplemented` for a non-`Option` operand or a
differing `otype`, else `self._cmp(other) > 0`. -/
def pyGt (self : EdnsOption) (other : Operand) : PyCmpResult :=
  match other with
  | .notOption _ => .notImplemented
  | .opt o =>
      if self.otype ≠ o.otype then .notImplemented
      else
        match cmpSame self o with
        | none => .raised
        | some c => .val (c == Ordering.gt)

/-! ### Wire encode / decode (`to_wire` / `from_wire` per class)

`to_wire(self, file)` writes bytes into the caller's sink; it is modelled
as returning the written bytes.  `from_wire(cls, otype, wire, current,
olen)` works on the Python slice `wire[current : current + olen]`, which
silently truncates at the end of the buffer; the slice is
`(wire.drop current).take olen`. -/

/-- `GenericOption.to_wire`: `file.write(self.data)`. -/
def GenericOption.to_wire (g : GenericOption) : List Nat :=
  g.data

/-- `GenericOption.from_wire`: `cls(otype, wire[current : current + olen])`;
never fails. -/
def GenericOption.from_wire (otype : Nat) (wire : List Nat)
    (current olen : Nat) : GenericOption :=
  { otype := otype, data := (wire.drop current).take olen }

/-- `LLQOption.to_wire`: `struct.pack('!HHHQL', version, opcode,
errorcode, queryid, leaselife)`. -/
def LLQOption.to_wire (l : LLQOption) : Option (List Nat) :=
  struct_pack [(2, l.version), (2, l.opcode), (2, l.errorcode),
               (8, l.queryid), (4, l.leaselife)]

/-- `LLQOption.from_wire`: `struct.unpack('!HHHQL',
wire[current : current + olen])` then `cls(version, opcode, errorcode,
queryid, leaselife)`; `none` models the raised `struct.error` (the spec's
`MalformedOption`). -/
def LLQOption.from_wire (otype : Nat) (wire : List Nat)
    (current olen : Nat) : Option LLQOption :=
  match struct_unpack [2, 2, 2, 8, 4] ((wire.drop current).take olen) with
  | some [version, opcode, errorcode, queryid, leaselife] =>
      some ⟨version, opcode, errorcode, queryid, leaselife⟩
  | _ => none

/-- `ULOption.to_wire`: `struct.pack('!QL', ulid, leaselength)` — wire
order differs from the constructor argument order. -/
def ULOption.to_wire (u : ULOption) : Option (List Nat) :=
  struct_pack [(8, u.ulid), (4, u.leaselength)]

/-- `ULOption.from_wire`: `(ulid, leaselength) = struct.unpack('!QL',
wire[current : current + olen])` then `cls(leaselength, ulid)`; `none`
models the raised `struct.error` (the spec's `MalformedOption`). -/
def ULOption.from_wire (otype : Nat) (wire : List Nat)
    (current olen : Nat) : Option ULOption :=
  match struct_unpack [8, 4] ((wire.drop current).take olen) with
  | some [ulid, leaselength] => some ⟨leaselength, ulid⟩
  | _ => none

/-! ### Registry and dispatch (`edns.py` lines 185-210) -/

/-- The class objects the registry can return. -/
inductive OptionClass where
  | llqOption
  | ulOption
  | genericOption
deriving DecidableEq

/-- `_type_to_class`: the static dict `{LLQ: LLQOption, UL: ULOption}`. -/
def type_to_class : List (Nat × OptionClass) :=
  [(LLQ, .llqOption), (UL, .ulOption)]

/-- `get_option_class`: `_type_to_class.get(otype)` with `GenericOption`
as the fallback when no entry exists. -/
def get_option_class (otype : Nat) : OptionClass :=
  match type_to_class.lookup otype with
  | some cls => cls
  | none => .genericOption

/-- `option_from_wire`: resolve the class for `otype`, then invoke its
`from_wire`. -/
def option_from_wire (otype : Nat) (wire : List Nat)
    (current olen : Nat) : Option EdnsOption :=
  match get_option_class otype with
  | .llqOption => (LLQOption.from_wire otype wire current olen).map .llq
  | .ulOption => (ULOption.from_wire otype wire current olen).map .ul
  | .genericOption =>
      some (.generic (GenericOption.from_wire otype wire current olen))

/-! ### Module load and default construction of `LLQOption`

`LLQOption.__init__` declares
`queryid = dns.entropy.between(0, 18446744073709551615L)` as a default
argument.  Python evaluates default-argument expressions once, when the
`def` statement executes — that is, when the `dns.edns` module is loaded —
and stores the resulting values in the function object; a later call that
omits the argument substitutes the stored value without re-evaluating the
expression. -/

/-- Modelled from the spec: the external entropy source
(`dns.entropy.between`, the spec's `random_u64(min, max)`), whose
implementation is not part of this unit.  It is modelled as an abstract
stream of numbers together with a cursor; each draw consumes one stream
element and returns a value in `[lo, hi]`. -/
structure EntropyState where
  stream : Nat → Nat
  idx : Nat

/-- Modelled from the spec: one draw from the external entropy source. -/
def between (lo hi : Nat) (s : EntropyState) : Nat × EntropyState :=
  (lo + s.stream s.idx % (hi + 1 - lo), { s with idx := s.idx + 1 })

/-- The state left behind by executing the `dns.edns` module body: the
evaluated default for `LLQOption.__init__`'s `queryid` parameter, and the
entropy source after the single draw that evaluation performed. -/
structure ModuleState where
  defaultQueryId : Nat
  entropy : EntropyState

/-- Loading `dns.edns` executes `class LLQOption`'s body, evaluating the
default-argument expression `dns.entropy.between(0, 2**64 - 1)` exactly
once and storing the result. -/
def loadModule (s : EntropyState) : ModuleState :=
  let r := between 0 18446744073709551615 s
  { defaultQueryId := r.1, entropy := r.2 }

/-- `LLQOption()` with every argument omitted: Python substitutes the
stored defaults `(1, LLQ_OPCODE_SETUP, LLQ_ERROR_NOERROR,
<stored queryid>, 0)`; no entropy is consumed by the call itself, so the
module state is returned unchanged. -/
def LLQOption.constructDefault (m : ModuleState) : LLQOption × ModuleState :=
  ({ version := 1, opcode := LLQ_OPCODE_SETUP, errorcode := LLQ_ERROR_NOERROR,
     queryid := m.defaultQueryId, leaselife := 0 }, m)

/-! ### Spec-side definition for the ordering claim

The spec describes each `_cmp` as a lexicographic comparison of a tuple
of numbers; this definition follows those words (componentwise, first
difference decides, a strict prefix is smaller) and is compared against
the source-side `_cmp` definitions above. -/

/-- Lexicographic comparison of number sequences, as the spec words it. -/
def specLexCmp : List Nat → List Nat → Ordering
  | [], [] => .eq
  | [], _ :: _ => .lt
  | _ :: _, [] => .gt
  | x :: xs, y :: ys =>
      if x < y then .lt
      else if y < x then .gt
      else specLexCmp xs ys

/-! ### Helper lemmas -/

theorem beBytes_length (w v : Nat) : (beBytes w v).length = w := by
  induction w generalizing v with
  | zero => rfl
  | succ n ih => simp [beBytes, ih]

theorem beVal_beBytes (w v : Nat) (h : v < 2 ^ (8 * w)) :
    beVal (beBytes w v) = v := by
  induction w generalizing v with
  | zero =>
    simp only [Nat.mul_zero, pow_zero, Nat.lt_one_iff] at h
    simp [beBytes, beVal, h]
  | succ n ih =>
    have h2 : (2 : Nat) ^ (8 * (n + 1)) = 2 ^ (8 * n) * 256 := by
      rw [Nat.mul_succ, pow_add]
      norm_num
    have hv : v / 256 < 2 ^ (8 * n) :=
      (Nat.div_lt_iff_lt_mul (by norm_num)).mpr (by omega)
    have hrec := ih (v / 256) hv
    simp only [beVal] at hrec
    simp only [beBytes, beVal, List.foldl_append, List.foldl_cons, List.foldl_nil,
      hrec]
    omega

theorem take_append_of_length_eq (xs ys : List Nat) (n : Nat)
    (h : xs.length = n) : (xs ++ ys).take n = xs := by
  subst h
  induction xs with
  | nil => rfl
  | cons a t ih => simp [ih]

theorem drop_append_of_length_eq (xs ys : List Nat) (n : Nat)
    (h : xs.length = n) : (xs ++ ys).drop n = ys := by
  subst h
  induction xs with
  | nil => rfl
  | cons a t ih => simp [ih]

theorem struct_pack_eq_some (fields : List (Nat × Nat))
    (h : ∀ p ∈ fields, p.2 < 2 ^ (8 * p.1)) :
    ∃ bs, struct_pack fields = some bs := by
  induction fields with
  | nil => exact ⟨[], rfl⟩
  | cons p rest ih =>
    obtain ⟨bs', hbs'⟩ := ih (fun q hq => h q (List.mem_cons_of_mem p hq))
    have hp : p.2 < 2 ^ (8 * p.1) := h p (List.mem_cons_self p rest)
    exact ⟨beBytes p.1 p.2 ++ bs', by simp [struct_pack, packField, hp, hbs']⟩

theorem struct_unpack_struct_pack (fields : List (Nat × Nat)) (bs : List Nat)
    (h : struct_pack fields = some bs) :
    struct_unpack (fields.map Prod.fst) bs = some (fields.map Prod.snd) := by
  induction fields generalizing bs with
  | nil =>
    simp only [struct_pack, Option.some_inj] at h
    subst h
    rfl
  | cons p rest ih =>
    obtain ⟨w, v⟩ := p
    rcases hp : packField w v with _ | b
    · simp [struct_pack, hp] at h
    rcases hr : struct_pack rest with _ | bs'
    · simp [struct_pack, hp, hr] at h
    have hbs : b ++ bs' = bs := by simpa [struct_pack, hp, hr] using h
    have hlt : v < 2 ^ (8 * w) ∧ beBytes w v = b := by
      by_cases hv : v < 2 ^ (8 * w)
      · refine ⟨hv, ?_⟩
        simpa [packField, hv] using hp
      · simp [packField, hv] at hp
    obtain ⟨hv, hb⟩ := hlt
    subst hb
    subst hbs
    have hlen : (beBytes w v ++ bs').length = w + bs'.length := by
      simp [beBytes_length]
    have htake : (beBytes w v ++ bs').take w = beBytes w v :=
      take_append_of_length_eq _ _ _ (beBytes_length w v)
    have hdrop : (beBytes w v ++ bs').drop w = bs' :=
      drop_append_of_length_eq _ _ _ (beBytes_length w v)
    simp [struct_unpack, hlen, htake, hdrop, Nat.le_add_right,
      beVal_beBytes w v hv, ih bs' hr]

theorem struct_unpack_some_length (widths s vs : List Nat)
    (h : struct_unpack widths s = some vs) : s.length = widths.sum := by
  induction widths generalizing s vs with
  | nil =>
    by_cases h0 : s.length = 0
    · simpa using h0
    · simp [struct_unpack, h0] at h
  | cons w rest ih =>
    by_cases hw : w ≤ s.length
    · rcases hr : struct_unpack rest (s.drop w) with _ | vs'
      · simp [struct_unpack, hw, hr] at h
      · have := ih _ _ hr
        simp only [List.length_drop] at this
        simp only [List.sum_cons]
        omega
    · simp [struct_unpack, hw] at h

theorem ordering_then_eq (o : Ordering) : o.then Ordering.eq = o := by
  cases o <;> rfl

theorem specLexCmp_nil : specLexCmp [] [] = Ordering.eq := rfl

theorem specLexCmp_cons (x y : Nat) (xs ys : List Nat) :
    specLexCmp (x :: xs) (y :: ys) = (compare x y).then (specLexCmp xs ys) := by
  rcases Nat.lt_trichotomy x y with h | h | h
  · simp [specLexCmp, h, Nat.compare_eq_lt.mpr h, Ordering.then]
  · subst h
    simp [specLexCmp, Nat.lt_irrefl, Nat.compare_eq_eq.mpr rfl, Ordering.then]
  · simp [specLexCmp, h, Nat.lt_asymm h, Nat.compare_eq_gt.mpr h, Ordering.then]

theorem cmpBytes_eq_specLexCmp (xs ys : List Nat) :
    cmpBytes xs ys = specLexCmp xs ys := by
  induction xs generalizing ys with
  | nil => cases ys <;> rfl
  | cons a t ih =>
    cases ys with
    | nil => rfl
    | cons b u =>
      rw [specLexCmp_cons]
      simp only [cmpBytes]
      cases hc : compare a b
      · rfl
      · exact ih u
      · rfl

/-! ### Claim theorems -/

/-- Claim C1, refuted (code bug): the default-argument expression
`dns.entropy.between(0, 2**64 - 1)` is evaluated once, at module load,
and its value is reused by every default construction.  With the entropy
stream 0, 1, 2, … : two default constructions obtain the same `queryid`
(not independent draws), exactly one stream element has been consumed
after both constructions (the module-load draw), and the stream value at
the post-construction cursor differs from the `queryid` either
construction received — no construction-time draw happened. -/
theorem llq_default_queryid_single_module_load_draw :
    ((LLQOption.constructDefault (loadModule ⟨fun n => n, 0⟩)).1.queryid =
      (LLQOption.constructDefault
        ((LLQOption.constructDefault (loadModule ⟨fun n => n, 0⟩)).2)).1.queryid) ∧
    ((LLQOption.constructDefault
        ((LLQOption.constructDefault (loadModule ⟨fun n => n, 0⟩)).2)).2).entropy.idx = 1 ∧
    (LLQOption.constructDefault (loadModule ⟨fun n => n, 0⟩)).1.queryid ≠
      ((LLQOption.constructDefault
        ((LLQOption.constructDefault (loadModule ⟨fun n => n, 0⟩)).2)).2).entropy.stream 1 := by
  refine ⟨rfl, rfl, ?_⟩
  decide

/-- Claim C2, counterexample: a `GenericOption` with option type 3 whose
payload is byte-identical to an LLQOption's encoding is compared with
`!=` against that LLQOption; the result is `False`, not `True` as the
claim states, because `__ne__` returns `False` whenever the `otype`
values differ. -/
theorem cross_type_ne_false_example :
    pyNe (.generic ⟨3, [0, 1, 0, 1, 0, 0, 0, 0, 0, 0, 0, 0, 0, 7, 0, 0, 0, 0]⟩)
      (.opt (.llq ⟨1, 1, 0, 7, 0⟩)) = some false := by
  decide

/-- Claim C2, amended: for any two Option instances whose `otype` values
differ, `__eq__` returns `False` — and `__ne__` also returns `False`
(it applies the same guards as `__eq__`), rather than `True`. -/
theorem cross_type_eq_ne_both_false (a b : EdnsOption)
    (h : a.otype ≠ b.otype) :
    pyEq a (.opt b) = some false ∧ pyNe a (.opt b) = some false := by
  simp [pyEq, pyNe, h]

theorem cross_type_eq_ne_both_false_witness :
    pyEq (.ul ⟨5, 6⟩) (.opt (.generic ⟨7, []⟩)) = some false ∧
    pyNe (.ul ⟨5, 6⟩) (.opt (.generic ⟨7, []⟩)) = some false :=
  cross_type_eq_ne_both_false (.ul ⟨5, 6⟩) (.generic ⟨7, []⟩) (by decide)

/-- Claim C3, counterexample: `LLQOption.from_wire` invoked with declared
length 19 on an 18-byte buffer succeeds (the Python slice silently
truncates the window to the 18 available bytes, which `struct.unpack`
then accepts), so a declared length other than 18 does not always fail. -/
theorem llq_decode_overlong_length_succeeds :
    LLQOption.from_wire LLQ (List.replicate 18 0) 0 19 =
      some ⟨0, 0, 0, 0, 0⟩ := by
  decide

/-- Claim C3, amended: for every declared length in [0, 64] whose window
lies inside the buffer (`current + olen ≤ wire.length`), a length other
than 18 makes `LLQOption.from_wire` fail, and a length other than 12
makes `ULOption.from_wire` fail — the classified decode failure (the
raised `struct.error`, the spec's `MalformedOption`), never silent
truncation or zero-padding.  Without the in-bounds condition the Python
slice can truncate the window to the required width and decode succeeds. -/
theorem fixed_width_decode_rejects_in_bounds (olen : Nat) (wire : List Nat)
    (current : Nat) (hle : olen ≤ 64) (hbound : current + olen ≤ wire.length) :
    (olen ≠ 18 → LLQOption.from_wire LLQ wire current olen = none) ∧
    (olen ≠ 12 → ULOption.from_wire UL wire current olen = none) := by
  have hs : ((wire.drop current).take olen).length = olen := by
    simp only [List.length_take, List.length_drop]
    omega
  constructor
  · intro hne
    rcases hu : struct_unpack [2, 2, 2, 8, 4] ((wire.drop current).take olen)
      with _ | vs
    · simp [LLQOption.from_wire, hu]
    · have hlen := struct_unpack_some_length _ _ _ hu
      rw [hs] at hlen
      norm_num [List.sum_cons, List.sum_nil] at hlen
      exact absurd hlen hne
  · intro hne
    rcases hu : struct_unpack [8, 4] ((wire.drop current).take olen)
      with _ | vs
    · simp [ULOption.from_wire, hu]
    · have hlen := struct_unpack_some_length _ _ _ hu
      rw [hs] at hlen
      norm_num [List.sum_cons, List.sum_nil] at hlen
      exact absurd hlen hne

theorem fixed_width_decode_rejects_in_bounds_witness :
    (20 ≠ 18 → LLQOption.from_wire LLQ (List.replicate 20 0) 0 20 = none) ∧
    (20 ≠ 12 → ULOption.from_wire UL (List.replicate 20 0) 0 20 = none) :=
  fixed_width_decode_rejects_in_bounds 20 (List.replicate 20 0) 0
    (by decide) (by decide)

/-- Claim C4, counterexample: a decode call whose requested window
exceeds the buffer's bounds (offset 0, length 5, a 1-byte buffer) does
not fail: dispatching option type 3 to `GenericOption.from_wire` returns
a payload of the 1 available byte, shorter than the requested length. -/
theorem decode_out_of_bounds_not_rejected :
    option_from_wire 3 [120] 0 5 = some (.generic ⟨3, [120]⟩) := by
  decide

/-- Claim C4, amended: a window exceeding the buffer's bounds is not
rejected as such — the Python slice silently truncates it, so
`GenericOption.from_wire` returns the available bytes (possibly fewer
than `length`) and the fixed-width decoders see the truncated slice.
What does hold: no decoder reads bytes outside `[offset, offset+length)`
— every decoder's result depends only on that window of the buffer. -/
theorem decode_window_framing :
    (∀ (otype : Nat) (wireA wireB : List Nat) (current olen : Nat),
        (wireA.drop current).take olen = (wireB.drop current).take olen →
        option_from_wire otype wireA current olen =
          option_from_wire otype wireB current olen) ∧
    (∀ (otype : Nat) (wire : List Nat) (current olen : Nat),
        GenericOption.from_wire otype wire current olen =
          ⟨otype, (wire.drop current).take olen⟩) := by
  constructor
  · intro otype wireA wireB current olen h
    cases hc : get_option_class otype <;>
      simp [option_from_wire, hc, LLQOption.from_wire, ULOption.from_wire,
        GenericOption.from_wire, h]
  · intro otype wire current olen
    rfl

theorem decode_window_framing_witness :
    option_from_wire 1 [9, 9] 5 3 = option_from_wire 1 [8, 8, 8] 5 3 :=
  decode_window_framing.1 1 [9, 9] [8, 8, 8] 5 3 (by decide)

/-- Claim C5: for field values fitting their declared unsigned widths,
decoding the bytes produced by `to_wire`, with the instance's own option
type code and the exact encoded length, succeeds and yields the original
instance — for GenericOption, LLQOption, and ULOption (whose wire field
order differs from its constructor argument order). -/
theorem decode_encode_roundtrip (g : GenericOption) (l : LLQOption)
    (u : ULOption)
    (hv : l.version < 2 ^ 16) (hop : l.opcode < 2 ^ 16)
    (he : l.errorcode < 2 ^ 16) (hq : l.queryid < 2 ^ 64)
    (hlf : l.leaselife < 2 ^ 32)
    (hui : u.ulid < 2 ^ 64) (hul : u.leaselength < 2 ^ 32) :
    GenericOption.from_wire g.otype g.to_wire 0 g.to_wire.length = g ∧
    (∃ w, l.to_wire = some w ∧
      LLQOption.from_wire LLQ w 0 w.length = some l) ∧
    (∃ w, u.to_wire = some w ∧
      ULOption.from_wire UL w 0 w.length = some u) := by
  refine ⟨?_, ?_, ?_⟩
  · obtain ⟨go, gd⟩ := g
    simp [GenericOption.from_wire, GenericOption.to_wire, List.take_length]
  · have hbound : ∀ p ∈ [((2 : Nat), l.version), (2, l.opcode),
        (2, l.errorcode), (8, l.queryid), (4, l.leaselife)],
        p.2 < 2 ^ (8 * p.1) := by
      intro p hp
      simp only [List.mem_cons, List.not_mem_nil, or_false] at hp
      rcases hp with rfl | rfl | rfl | rfl | rfl <;> norm_num <;> omega
    obtain ⟨w, hw⟩ := struct_pack_eq_some _ hbound
    refine ⟨w, hw, ?_⟩
    have hu := struct_unpack_struct_pack _ _ hw
    simp only [List.map_cons, List.map_nil] at hu
    simp [LLQOption.from_wire, List.take_length, hu]
  · have hbound : ∀ p ∈ [((8 : Nat), u.ulid), (4, u.leaselength)],
        p.2 < 2 ^ (8 * p.1) := by
      intro p hp
      simp only [List.mem_cons, List.not_mem_nil, or_false] at hp
      rcases hp with rfl | rfl <;> norm_num <;> omega
    obtain ⟨w, hw⟩ := struct_pack_eq_some _ hbound
    refine ⟨w, hw, ?_⟩
    have hu := struct_unpack_struct_pack _ _ hw
    simp only [List.map_cons, List.map_nil] at hu
    simp [ULOption.from_wire, List.take_length, hu]

theorem decode_encode_roundtrip_witness :
    GenericOption.from_wire (GenericOption.mk 9 [1, 2, 3]).otype
        (GenericOption.mk 9 [1, 2, 3]).to_wire 0
        (GenericOption.mk 9 [1, 2, 3]).to_wire.length =
      GenericOption.mk 9 [1, 2, 3] ∧
    (∃ w, LLQOption.to_wire ⟨1, 2, 3, 4, 5⟩ = some w ∧
      LLQOption.from_wire LLQ w 0 w.length = some ⟨1, 2, 3, 4, 5⟩) ∧
    (∃ w, ULOption.to_wire ⟨6, 7⟩ = some w ∧
      ULOption.from_wire UL w 0 w.length = some ⟨6, 7⟩) :=
  decode_encode_roundtrip ⟨9, [1, 2, 3]⟩ ⟨1, 2, 3, 4, 5⟩ ⟨6, 7⟩
    (by norm_num) (by norm_num) (by norm_num) (by norm_num) (by norm_num)
    (by norm_num) (by norm_num)

/-- Claim C6: each variant's `_cmp` coincides with the spec's
lexicographic comparison — LLQOption over the tuple
`(otype, version, opcode, errorcode, queryid, leaselife)` in that order,
ULOption over `(leaselength, ulid)` with the option type not part of the
tuple, and GenericOption (between same-type instances) bytewise over the
payloads. -/
theorem cmp_matches_spec_lex :
    (∀ a b : LLQOption, a.cmp b =
      specLexCmp [a.otype, a.version, a.opcode, a.errorcode, a.queryid, a.leaselife]
        [b.otype, b.version, b.opcode, b.errorcode, b.queryid, b.leaselife]) ∧
    (∀ a b : ULOption, a.cmp b =
      specLexCmp [a.leaselength, a.ulid] [b.leaselength, b.ulid]) ∧
    (∀ a b : GenericOption, a.otype = b.otype →
      a.cmp b = specLexCmp a.data b.data) := by
  refine ⟨fun a b => ?_, fun a b => ?_, fun a b h => ?_⟩
  · simp only [LLQOption.cmp, specLexCmp_cons, specLexCmp_nil, ordering_then_eq]
  · simp only [ULOption.cmp, specLexCmp_cons, specLexCmp_nil, ordering_then_eq]
  · simp only [GenericOption.cmp, cmpBytes_eq_specLexCmp]

theorem cmp_matches_spec_lex_witness :
    GenericOption.cmp ⟨5, [1, 2]⟩ ⟨5, [1, 3]⟩ = specLexCmp [1, 2] [1, 3] :=
  cmp_matches_spec_lex.2.2 ⟨5, [1, 2]⟩ ⟨5, [1, 3]⟩ rfl

/-- Claim C7: `ULOption` with `leaselength = 3600` and `ulid = 42`
encodes to exactly the 12 bytes `00 00 00 00 00 00 00 2A 00 00 0E 10`
(ulid as 8-byte big-endian, then leaselength as 4-byte big-endian), and
decoding those bytes yields the original field values; `LLQOption`
`(version 1, opcode 1, errorcode 0, queryid 7, leaselife 0)` encodes to
exactly the 18 bytes `00 01 00 01 00 00 00 00 00 00 00 00 00 07 00 00 00
00`. -/
theorem concrete_wire_bytes :
    ULOption.to_wire ⟨3600, 42⟩ =
      some [0x00, 0x00, 0x00, 0x00, 0x00, 0x00, 0x00, 0x2A,
            0x00, 0x00, 0x0E, 0x10] ∧
    ULOption.from_wire UL
      [0x00, 0x00, 0x00, 0x00, 0x00, 0x00, 0x00, 0x2A,
       0x00, 0x00, 0x0E, 0x10] 0 12 = some ⟨3600, 42⟩ ∧
    LLQOption.to_wire ⟨1, 1, 0, 7, 0⟩ =
      some [0x00, 0x01, 0x00, 0x01, 0x00, 0x00,
            0x00, 0x00, 0x00, 0x00, 0x00, 0x00, 0x00, 0x07,
            0x00, 0x00, 0x00, 0x00] := by
  refine ⟨?_, ?_, ?_⟩ <;> decide

/-- Claim C8: for every 16-bit option type code, registry resolution
never fails — `get_option_class` returns the LLQOption class for code 1,
the ULOption class for code 2, and the GenericOption class for every
other code. -/
theorem registry_resolution (otype : Nat) (h : otype < 2 ^ 16) :
    get_option_class otype =
      if otype = LLQ then OptionClass.llqOption
      else if otype = UL then OptionClass.ulOption
      else OptionClass.genericOption := by
  by_cases h1 : otype = LLQ
  · subst h1
    rfl
  · by_cases h2 : otype = UL
    · subst h2
      rfl
    · simp only [LLQ, UL] at h1 h2
      have e1 : (otype == 1) = false := by simp [h1]
      have e2 : (otype == 2) = false := by simp [h2]
      simp [get_option_class, type_to_class, List.lookup, LLQ, UL, h1, h2, e1, e2]

theorem registry_resolution_witness :
    get_option_class 7 =
      if 7 = LLQ then OptionClass.llqOption
      else if 7 = UL then OptionClass.ulOption
      else OptionClass.genericOption :=
  registry_resolution 7 (by norm_num)

/-- Claim C9: every ordering comparison (`__lt__`, `__le__`, `__ge__`,
`__gt__`) between two Option instances whose `otype` values differ
returns the `NotImplemented` sentinel rather than a boolean ordering
value. -/
theorem cross_type_ordering_not_implemented (a b : EdnsOption)
    (h : a.otype ≠ b.otype) :
    pyLt a (.opt b) = PyCmpResult.notImplemented ∧
    pyLe a (.opt b) = PyCmpResult.notImplemented ∧
    pyGe a (.opt b) = PyCmpResult.notImplemented ∧
    pyGt a (.opt b) = PyCmpResult.notImplemented := by
  simp [pyLt, pyLe, pyGe, pyGt, h]

theorem cross_type_ordering_not_implemented_witness :
    pyLt (.llq ⟨1, 1, 0, 7, 0⟩) (.opt (.ul ⟨0, 0⟩)) = PyCmpResult.notImplemented ∧
    pyLe (.llq ⟨1, 1, 0, 7, 0⟩) (.opt (.ul ⟨0, 0⟩)) = PyCmpResult.notImplemented ∧
    pyGe (.llq ⟨1, 1, 0, 7, 0⟩) (.opt (.ul ⟨0, 0⟩)) = PyCmpResult.notImplemented ∧
    pyGt (.llq ⟨1, 1, 0, 7, 0⟩) (.opt (.ul ⟨0, 0⟩)) = PyCmpResult.notImplemented :=
  cross_type_ordering_not_implemented (.llq ⟨1, 1, 0, 7, 0⟩) (.ul ⟨0, 0⟩)
    (by decide)

/-- Claim C10: against any operand that is not an Option instance, both
`__eq__` and `__ne__` return `False` — neither raises nor defers with
`NotImplemented` — so the two tests give the same answer rather than
complementary ones. -/
theorem non_option_eq_ne_both_false (x : EdnsOption) (t : Nat) :
    pyEq x (.notOption t) = some false ∧ pyNe x (.notOption t) = some false := by
  constructor <;> rfl

end DnsEdns
